import Mathlib

/-!
Shallow embedding of the RunMeter runoff calculator (src/streamlit_app.py).

The calculate handler of the app reads three columns of the uploaded
DataFrame — reading a missing column raises a KeyError that the except
block turns into an error message — then applies the selected method to
every row (pandas element-wise arithmetic) and builds a result frame whose
three columns are rounded to two decimals.  The embedding uses exact
rationals for the float arithmetic, models a DataFrame as the set of
columns it has together with its rows, and models the try/except around
the column reads as an Except value.
-/

namespace RunMeter

/-- The method radio button: "SCS CN Method" or "Strange Method". -/
inductive Method
  | scs_cn
  | strange
deriving DecidableEq

/-- One row of the uploaded table: the three numeric cells the handler
reads.  (When the embedding marks a column as absent in the table, the
corresponding field of its rows is dead data.) -/
structure InputRow where
  rainfall : ℚ
  curveNumber : ℚ
  area : ℚ
deriving DecidableEq

/-- One row of the result DataFrame built by the handler. -/
structure ResultRow where
  rainfall : ℚ
  runoff : ℚ
  runoffVolume : ℚ
deriving DecidableEq

/-- Two-decimal rounding, the embedding of pandas Series.round(2). -/
def round2 (q : ℚ) : ℚ := (⌊q * 100 + 1 / 2⌋ : ℤ) / 100

/-- Per-row computation of the handler: the SCS CN branch computes
S = 25400/CN - 254, Q = (P - 0.2 S)^2 / (P + 0.8 S), Vol = Q * area * 1000;
the Strange branch computes Vol = P * area * 0.278 and Q = Vol / area.
Rounding to two decimals happens only when the result row is assembled. -/
def computeRow (m : Method) (r : InputRow) : ResultRow :=
  match m with
  | .scs_cn =>
    let S : ℚ := 25400 / r.curveNumber - 254
    let Q : ℚ := (r.rainfall - 0.2 * S) ^ 2 / (r.rainfall + 0.8 * S)
    let runoff_volume : ℚ := Q * r.area * 1000
    ⟨round2 r.rainfall, round2 Q, round2 runoff_volume⟩
  | .strange =>
    let runoff_volume : ℚ := r.rainfall * r.area * 0.278
    let Q : ℚ := runoff_volume / r.area
    ⟨round2 r.rainfall, round2 Q, round2 runoff_volume⟩

/-- The uploaded DataFrame: which of the three columns exist, and the rows. -/
structure InputTable where
  hasRainfall : Bool
  hasCurveNumber : Bool
  hasArea : Bool
  rows : List InputRow

/-- The body of the calculate button handler.  The three column reads
happen in source order before the method branch, so a missing column
raises a KeyError (caught by the except block and shown as an error)
regardless of the selected method; otherwise every row is computed. -/
def calculate (t : InputTable) (m : Method) : Except String (List ResultRow) :=
  if t.hasRainfall then
    if t.hasCurveNumber then
      if t.hasArea then
        .ok (t.rows.map (computeRow m))
      else .error ("KeyError: Area (sq.km)")
    else .error ("KeyError: Curve Number")
  else .error ("KeyError: Rainfall (mm)")

/-- Character for a decimal digit (48 is the code of the zero digit). -/
def digitChar (d : ℕ) : Char := Char.ofNat (48 + d % 10)

/-- Numeric value of a decimal digit character. -/
def charDigit (c : Char) : ℕ := c.toNat - 48

/-- Decimal rendering of a natural number, most significant digit first. -/
def renderNat (n : ℕ) : List Char :=
  if n = 0 then ['0'] else ((Nat.digits 10 n).map digitChar).reverse

/-- Decimal parsing of a digit string, most significant digit first. -/
def parseNat (cs : List Char) : ℕ := cs.foldl (fun a c => 10 * a + charDigit c) 0

/-- Fixed-point rendering of the value k / 100 with two digits after the
decimal point, the embedding of how a two-decimal result cell appears in
the downloaded CSV text. -/
def renderFixed2 (k : ℤ) : List Char :=
  (if k < 0 then ['-'] else []) ++
    renderNat (k.natAbs / 100) ++ '.' :: [digitChar (k.natAbs % 100 / 10), digitChar (k.natAbs % 10)]

/-- The digits after the decimal point of a rendered cell. -/
def fracDigits (cs : List Char) : List Char := (cs.dropWhile (fun c => c != '.')).drop 1

/-- Parse an unsigned decimal-point numeral back into a rational. -/
def parseUnsigned (cs : List Char) : ℚ :=
  (parseNat (cs.takeWhile (fun c => c != '.')) : ℚ) +
    (parseNat (fracDigits cs) : ℚ) / (10 : ℚ) ^ (fracDigits cs).length

/-- Parse a possibly signed decimal-point numeral back into a rational. -/
def parseFixed2 (cs : List Char) : ℚ :=
  if cs.head? = some '-' then - parseUnsigned (cs.drop 1) else parseUnsigned cs

/-- Serialize one result cell (a value already rounded to two decimals)
to its CSV text. -/
def renderCell (q : ℚ) : List Char := renderFixed2 ⌊q * 100 + 1 / 2⌋

theorem charDigit_digitChar : ∀ d, d < 10 → charDigit (digitChar d) = d := by decide

theorem digitChar_ne_dot : ∀ d, d < 10 → digitChar d ≠ '.' := by decide

theorem digitChar_ne_dash : ∀ d, d < 10 → digitChar d ≠ '-' := by decide

theorem computeRow_scs_cn_def (p c a : ℚ) :
    computeRow .scs_cn ⟨p, c, a⟩ =
      ⟨round2 p,
       round2 ((p - 0.2 * (25400 / c - 254)) ^ 2 / (p + 0.8 * (25400 / c - 254))),
       round2 ((p - 0.2 * (25400 / c - 254)) ^ 2 / (p + 0.8 * (25400 / c - 254)) * a * 1000)⟩ :=
  rfl

theorem computeRow_strange_def (p c a : ℚ) :
    computeRow .strange ⟨p, c, a⟩ =
      ⟨round2 p, round2 (p * a * 0.278 / a), round2 (p * a * 0.278)⟩ :=
  rfl

theorem calculate_ok_eq {t : InputTable} {m : Method} {rs : List ResultRow}
    (h : calculate t m = .ok rs) : rs = t.rows.map (computeRow m) := by
  obtain ⟨hr, hc, ha, rows⟩ := t
  cases hr <;> cases hc <;> cases ha <;>
    simp only [calculate, Bool.false_eq_true, if_false, if_true, reduceCtorEq] at h
  exact (Except.ok.injEq _ _).mp h |>.symm

/-- C1: at rainfall 5, curve number 70, area 1 the rainfall lies below the
initial abstraction 0.2 * S, yet the code returns runoff 3.05 mm, not 0:
the squared numerator hides the sign and no clamp to zero exists. -/
theorem scs_below_initial_abstraction_not_clamped :
    (5 : ℚ) ≤ 0.2 * (25400 / 70 - 254) ∧
    computeRow .scs_cn ⟨5, 70, 1⟩ = ⟨5, 3.05, 3054.55⟩ ∧
    (3.05 : ℚ) ≠ 0 := by
  refine ⟨by norm_num, ?_, by norm_num⟩
  rw [computeRow_scs_cn_def]
  simp only [ResultRow.mk.injEq]
  refine ⟨?_, ?_, ?_⟩ <;> (unfold round2; norm_num)

/-- C7: with curve number 70 and area 1 fixed, raising rainfall from 1 to 5
makes the computed runoff fall from 4.90 to 3.05, so runoff is not
monotonically non-decreasing in rainfall (the missing clamp again). -/
theorem scs_runoff_not_monotone_in_rainfall :
    (0 : ℚ) < 1 ∧ (1 : ℚ) ≤ 5 ∧ (0 : ℚ) < 70 ∧ (70 : ℚ) ≤ 100 ∧
    (computeRow .scs_cn ⟨1, 70, 1⟩).runoff = 4.9 ∧
    (computeRow .scs_cn ⟨5, 70, 1⟩).runoff = 3.05 ∧
    (computeRow .scs_cn ⟨5, 70, 1⟩).runoff < (computeRow .scs_cn ⟨1, 70, 1⟩).runoff := by
  have h1 : (computeRow .scs_cn ⟨1, 70, 1⟩).runoff = 4.9 := by
    rw [computeRow_scs_cn_def]
    unfold round2
    norm_num
  have h5 : (computeRow .scs_cn ⟨5, 70, 1⟩).runoff = 3.05 := by
    rw [computeRow_scs_cn_def]
    unfold round2
    norm_num
  refine ⟨by norm_num, by norm_num, by norm_num, by norm_num, h1, h5, ?_⟩
  rw [h1, h5]
  norm_num

/-- C8: on the spec example row (rainfall 50, curve number 80, area 10) the
code yields runoff 13.80 mm and volume 138024.80 m^3, not the 13.82 mm and
138200.00 m^3 the spec states: (50 - 12.7)^2 / (50 + 50.8) = 13.8025. -/
theorem spec_example_runoff_value_incorrect :
    (computeRow .scs_cn ⟨50, 80, 10⟩).runoff ≠ 13.82 ∧
    (computeRow .scs_cn ⟨50, 80, 10⟩).runoffVolume ≠ 138200 := by
  have h : computeRow .scs_cn ⟨50, 80, 10⟩ = ⟨50, 13.8, 138024.8⟩ := by
    rw [computeRow_scs_cn_def]
    simp only [ResultRow.mk.injEq]
    refine ⟨?_, ?_, ?_⟩ <;> (unfold round2; norm_num)
  rw [h]
  refine ⟨by norm_num, by norm_num⟩

/-- C8 amended: on the spec example row the intermediate retention is
S = 63.5 and the code computes runoff 13.80 mm and volume 138024.80 m^3
(both after two-decimal rounding of the full-precision values). -/
theorem spec_example_recomputed :
    (25400 / 80 - 254 : ℚ) = 63.5 ∧
    computeRow .scs_cn ⟨50, 80, 10⟩ = ⟨50, 13.8, 138024.8⟩ := by
  refine ⟨by norm_num, ?_⟩
  rw [computeRow_scs_cn_def]
  simp only [ResultRow.mk.injEq]
  refine ⟨?_, ?_, ?_⟩ <;> (unfold round2; norm_num)

/-- C2: with curve number 200 the SCS denominator P + 0.8 S is negative,
yet the handler performs no check: the row is computed, kept in the result
table, and carries the negative runoff -110.18 mm — no RowComputationError
exists anywhere in the code. -/
theorem scs_nonpositive_denominator_unguarded :
    (50 : ℚ) + 0.8 * (25400 / 200 - 254) < 0 ∧
    calculate ⟨true, true, true, [⟨50, 200, 1⟩]⟩ .scs_cn = .ok [⟨50, -110.18, -110177.52⟩] ∧
    (-110.18 : ℚ) < 0 := by
  refine ⟨by norm_num, ?_, by norm_num⟩
  have h : computeRow .scs_cn ⟨50, 200, 1⟩ = ⟨50, -110.18, -110177.52⟩ := by
    rw [computeRow_scs_cn_def]
    simp only [ResultRow.mk.injEq]
    refine ⟨?_, ?_, ?_⟩ <;> (unfold round2; norm_num)
  show Except.ok [computeRow .scs_cn ⟨50, 200, 1⟩] = _
  rw [h]

/-- C3 counterexample: a table with rainfall and area columns but no Curve
Number column is rejected under the Strange method too, because the handler
reads the Curve Number column before branching on the method. -/
theorem strange_missing_curve_number_rejected :
    calculate ⟨true, false, true, [⟨50, 0, 10⟩]⟩ .strange = .error ("KeyError: Curve Number") :=
  rfl

/-- C3 amended: the Curve Number column is mandatory for both models; any
table lacking it makes the handler error out whichever method is selected. -/
theorem curve_number_required_for_both_models (t : InputTable) (m : Method)
    (h : t.hasCurveNumber = false) :
    calculate t m = .error ("KeyError: Rainfall (mm)") ∨
    calculate t m = .error ("KeyError: Curve Number") := by
  unfold calculate
  cases hr : t.hasRainfall
  · left
    simp
  · right
    rw [h]
    simp

theorem curve_number_required_for_both_models_witness :
    calculate ⟨true, false, true, [⟨50, 0, 10⟩]⟩ .scs_cn = .error ("KeyError: Rainfall (mm)") ∨
    calculate ⟨true, false, true, [⟨50, 0, 10⟩]⟩ .scs_cn = .error ("KeyError: Curve Number") :=
  curve_number_required_for_both_models ⟨true, false, true, [⟨50, 0, 10⟩]⟩ .scs_cn rfl

/-- C4 counterexample: a table whose only row has the invalid rainfall -5
is not rejected: no ValidationError of any kind exists in the code, the row
is computed and a result is produced. -/
theorem invalid_values_accepted :
    (-5 : ℚ) ≤ 0 ∧
    calculate ⟨true, true, true, [⟨-5, 80, 10⟩]⟩ .scs_cn = .ok [⟨-5, 6.84, 68403.93⟩] := by
  refine ⟨by norm_num, ?_⟩
  have h : computeRow .scs_cn ⟨-5, 80, 10⟩ = ⟨-5, 6.84, 68403.93⟩ := by
    rw [computeRow_scs_cn_def]
    simp only [ResultRow.mk.injEq]
    refine ⟨?_, ?_, ?_⟩ <;> (unfold round2; norm_num)
  show Except.ok [computeRow .scs_cn ⟨-5, 80, 10⟩] = _
  rw [h]

/-- C4 amended: the handler performs no value validation at all — every
table that has the three columns is computed in full, one result row per
input row, whatever the cell values are. -/
theorem no_value_validation (t : InputTable) (m : Method)
    (hr : t.hasRainfall = true) (hc : t.hasCurveNumber = true) (ha : t.hasArea = true) :
    calculate t m = .ok (t.rows.map (computeRow m)) := by
  unfold calculate
  rw [hr, hc, ha]
  simp

theorem no_value_validation_witness :
    calculate ⟨true, true, true, [⟨-5, 0, 10⟩]⟩ .strange =
      .ok (List.map (computeRow .strange) [⟨-5, 0, 10⟩]) :=
  no_value_validation ⟨true, true, true, [⟨-5, 0, 10⟩]⟩ .strange rfl rfl rfl

/-- C5: whenever the handler succeeds, the result table has exactly one row
per input row and the i-th result row is computed from the i-th input row —
the code has no per-row error path, so zero rows are ever dropped. -/
theorem results_align_with_input_rows (t : InputTable) (m : Method) (rs : List ResultRow)
    (h : calculate t m = .ok rs) :
    rs.length = t.rows.length ∧ ∀ i : ℕ, rs[i]? = (t.rows[i]?).map (computeRow m) := by
  obtain rfl := calculate_ok_eq h
  refine ⟨List.length_map _ _, fun i => List.getElem?_map (computeRow m) t.rows i⟩

theorem results_align_with_input_rows_witness :
    (List.map (computeRow .strange) [⟨50, 80, 10⟩]).length =
      ([⟨50, 80, 10⟩] : List InputRow).length ∧
    (List.map (computeRow .strange) [(⟨50, 80, 10⟩ : InputRow)])[0]? =
      (([⟨50, 80, 10⟩] : List InputRow)[0]?).map (computeRow .strange) :=
  ⟨(results_align_with_input_rows ⟨true, true, true, [⟨50, 80, 10⟩]⟩ .strange _ rfl).1,
   (results_align_with_input_rows ⟨true, true, true, [⟨50, 80, 10⟩]⟩ .strange _ rfl).2 0⟩

/-- C6: for any row with non-zero area, the Strange branch's back-derived
depth Q = (P * A * 0.278) / A collapses to P * 0.278 exactly, so the stored
runoff is round2 (P * 0.278) independently of the area. -/
theorem strange_runoff_identity (r : InputRow) (h : r.area ≠ 0) :
    (computeRow .strange r).runoff = round2 (r.rainfall * 0.278) := by
  obtain ⟨p, c, a⟩ := r
  have h : a ≠ 0 := h
  show round2 (p * a * 0.278 / a) = round2 (p * 0.278)
  have e : p * a * 0.278 / a = p * 0.278 := by
    field_simp
    ring
  rw [e]

theorem strange_runoff_identity_witness :
    ((⟨50, 80, 10⟩ : InputRow).area ≠ 0) ∧
    (computeRow .strange ⟨50, 80, 10⟩).runoff = round2 (50 * 0.278) :=
  ⟨by norm_num, strange_runoff_identity ⟨50, 80, 10⟩ (by norm_num)⟩

theorem map_strange_congr : ∀ l1 l2 : List InputRow,
    l1.map InputRow.rainfall = l2.map InputRow.rainfall →
    l1.map InputRow.area = l2.map InputRow.area →
    l1.map (computeRow .strange) = l2.map (computeRow .strange) := by
  intro l1
  induction l1 with
  | nil =>
    intro l2 hp _
    cases l2 with
    | nil => rfl
    | cons r2 l2 => simp at hp
  | cons r l ih =>
    intro l2 hp ha
    cases l2 with
    | nil => simp at hp
    | cons r2 l2 =>
      simp only [List.map_cons, List.cons.injEq] at hp ha ⊢
      obtain ⟨p, c, a⟩ := r
      obtain ⟨p2, c2, a2⟩ := r2
      refine ⟨?_, ih l2 hp.2 ha.2⟩
      have ep : p = p2 := hp.1
      have ea : a = a2 := ha.1
      rw [computeRow_strange_def, computeRow_strange_def, ep, ea]

/-- C10: under the Strange method the output depends only on the rainfall
and area columns — two tables with all three columns present that agree on
those two columns row by row produce identical results, whatever their
Curve Number cells hold. -/
theorem strange_independent_of_curve_number (t1 t2 : InputTable)
    (h1r : t1.hasRainfall = true) (h1c : t1.hasCurveNumber = true) (h1a : t1.hasArea = true)
    (h2r : t2.hasRainfall = true) (h2c : t2.hasCurveNumber = true) (h2a : t2.hasArea = true)
    (hp : t1.rows.map InputRow.rainfall = t2.rows.map InputRow.rainfall)
    (ha : t1.rows.map InputRow.area = t2.rows.map InputRow.area) :
    calculate t1 .strange = calculate t2 .strange := by
  unfold calculate
  rw [h1r, h1c, h1a, h2r, h2c, h2a]
  simp only [if_true]
  rw [map_strange_congr t1.rows t2.rows hp ha]

theorem strange_independent_of_curve_number_witness :
    calculate ⟨true, true, true, [⟨50, 80, 10⟩]⟩ .strange =
      calculate ⟨true, true, true, [⟨50, 1, 10⟩]⟩ .strange :=
  strange_independent_of_curve_number
    ⟨true, true, true, [⟨50, 80, 10⟩]⟩ ⟨true, true, true, [⟨50, 1, 10⟩]⟩
    rfl rfl rfl rfl rfl rfl rfl rfl

theorem mem_renderNat (n : ℕ) : ∀ c ∈ renderNat n, ∃ d, d < 10 ∧ c = digitChar d := by
  intro c hc
  unfold renderNat at hc
  by_cases h : n = 0
  · rw [if_pos h] at hc
    refine ⟨0, by norm_num, ?_⟩
    simp only [List.mem_singleton] at hc
    rw [hc]
    decide
  · rw [if_neg h, List.mem_reverse] at hc
    obtain ⟨d, hd, rfl⟩ := List.mem_map.1 hc
    exact ⟨d, Nat.digits_lt_base (by norm_num) hd, rfl⟩

theorem renderNat_ne_nil (n : ℕ) : renderNat n ≠ [] := by
  unfold renderNat
  by_cases h : n = 0
  · rw [if_pos h]
    simp
  · rw [if_neg h]
    simp only [ne_eq, List.reverse_eq_nil_iff, List.map_eq_nil_iff]
    exact Nat.digits_ne_nil_iff_ne_zero.2 h

theorem parseNat_append (cs : List Char) (c : Char) :
    parseNat (cs ++ [c]) = 10 * parseNat cs + charDigit c := by
  unfold parseNat
  rw [List.foldl_append]
  rfl

theorem parseNat_rev_map (ds : List ℕ) (h : ∀ d ∈ ds, d < 10) :
    parseNat ((ds.map digitChar).reverse) = Nat.ofDigits 10 ds := by
  induction ds with
  | nil => rfl
  | cons d ds ih =>
    rw [List.map_cons, List.reverse_cons, parseNat_append,
        ih (fun x hx => h x (List.mem_cons_of_mem _ hx)),
        charDigit_digitChar d (h d (List.mem_cons_self _ _)), Nat.ofDigits_cons]
    ring

theorem parseNat_renderNat (n : ℕ) : parseNat (renderNat n) = n := by
  unfold renderNat
  by_cases h : n = 0
  · rw [if_pos h, h]
    decide
  · rw [if_neg h, parseNat_rev_map _ (fun d hd => Nat.digits_lt_base (by norm_num) hd),
        Nat.ofDigits_digits]

theorem parseNat_pair (c1 c2 : Char) : parseNat [c1, c2] = 10 * charDigit c1 + charDigit c2 := by
  simp [parseNat]

theorem split_at_dot (A B : List Char) (h : ∀ a ∈ A, a ≠ '.') :
    (A ++ '.' :: B).takeWhile (fun c => c != '.') = A ∧
    (A ++ '.' :: B).dropWhile (fun c => c != '.') = '.' :: B := by
  induction A with
  | nil =>
    constructor
    · simp [List.takeWhile_cons]
    · simp [List.dropWhile_cons]
  | cons a A ih =>
    have ha : (a != '.') = true := by
      simp only [bne_iff_ne, ne_eq]
      exact h a (List.mem_cons_self _ _)
    have ih2 := ih (fun x hx => h x (List.mem_cons_of_mem _ hx))
    constructor
    · rw [List.cons_append]
      simp only [List.takeWhile_cons, ha, if_true, ih2.1]
    · rw [List.cons_append]
      simp only [List.dropWhile_cons, ha, if_true, ih2.2]

theorem parseUnsigned_render (n : ℕ) :
    parseUnsigned (renderNat (n / 100) ++ '.' :: [digitChar (n % 100 / 10), digitChar (n % 10)]) =
      (n : ℚ) / 100 := by
  have hnd : ∀ a ∈ renderNat (n / 100), a ≠ '.' := by
    intro a haa
    obtain ⟨d, hd, rfl⟩ := mem_renderNat _ a haa
    exact digitChar_ne_dot d hd
  obtain ⟨e1, e2⟩ :=
    split_at_dot (renderNat (n / 100)) [digitChar (n % 100 / 10), digitChar (n % 10)] hnd
  unfold parseUnsigned fracDigits
  rw [e1, e2, List.drop_succ_cons, List.drop_zero, parseNat_renderNat, parseNat_pair]
  have hm : n % 100 < 100 := Nat.mod_lt _ (by norm_num)
  rw [charDigit_digitChar _ (Nat.div_lt_of_lt_mul (by omega)),
      charDigit_digitChar _ (Nat.mod_lt _ (by norm_num))]
  have key : 10 * (n % 100 / 10) + n % 10 = n % 100 := by
    rw [← Nat.mod_mod_of_dvd n (by norm_num : (10 : ℕ) ∣ 100)]
    exact Nat.div_add_mod _ 10
  rw [key]
  have h := Nat.div_add_mod n 100
  have hq : (100 : ℚ) * ((n / 100 : ℕ) : ℚ) + ((n % 100 : ℕ) : ℚ) = (n : ℚ) := by
    exact_mod_cast h
  field_simp
  linarith

theorem parseFixed2_cons_dash (rest : List Char) :
    parseFixed2 ('-' :: rest) = - parseUnsigned rest := by
  simp [parseFixed2]

theorem parseFixed2_of_head_ne (cs : List Char) (h : cs.head? ≠ some '-') :
    parseFixed2 cs = parseUnsigned cs := by
  simp [parseFixed2, h]

theorem parseFixed2_renderFixed2 (k : ℤ) : parseFixed2 (renderFixed2 k) = (k : ℚ) / 100 := by
  by_cases hk : k < 0
  · unfold renderFixed2
    rw [if_pos hk, List.singleton_append, List.cons_append, parseFixed2_cons_dash,
        parseUnsigned_render k.natAbs]
    have habs : ((k.natAbs : ℕ) : ℚ) = -(k : ℚ) := by
      have h1 : (k.natAbs : ℤ) = -k := by omega
      have h2 : ((k.natAbs : ℤ) : ℚ) = ((-k : ℤ) : ℚ) := by rw [h1]
      rw [Int.cast_natCast, Int.cast_neg] at h2
      exact h2
    rw [habs]
    ring
  · unfold renderFixed2
    rw [if_neg hk, List.nil_append]
    rw [parseFixed2_of_head_ne _ ?hc, parseUnsigned_render k.natAbs]
    case hc =>
      obtain ⟨c, cs, e⟩ := List.exists_cons_of_ne_nil (renderNat_ne_nil (k.natAbs / 100))
      rw [e, List.cons_append, List.head?_cons]
      simp only [ne_eq, Option.some.injEq]
      intro hcd
      have hmem : c ∈ renderNat (k.natAbs / 100) := by
        rw [e]
        exact List.mem_cons_self _ _
      obtain ⟨d, hd, rfl⟩ := mem_renderNat _ c hmem
      exact digitChar_ne_dash d hd hcd
    have habs : ((k.natAbs : ℕ) : ℚ) = (k : ℚ) := by
      have h1 : (k.natAbs : ℤ) = k := by omega
      have h2 : ((k.natAbs : ℤ) : ℚ) = (k : ℚ) := by rw [h1]
      rw [Int.cast_natCast] at h2
      exact h2
    rw [habs]

theorem floor_round2_mul_100 (q : ℚ) : ⌊round2 q * 100 + 1 / 2⌋ = ⌊q * 100 + 1 / 2⌋ := by
  unfold round2
  rw [div_mul_cancel₀ _ (by norm_num : (100 : ℚ) ≠ 0), Int.floor_int_add]
  norm_num

theorem parse_render_round2 (q : ℚ) : parseFixed2 (renderCell (round2 q)) = round2 q := by
  unfold renderCell
  rw [floor_round2_mul_100, parseFixed2_renderFixed2]
  rfl

/-- C9: every numeric cell of every result row survives the serialize /
re-parse round trip exactly: rendering the two-decimal cell to its CSV text
and parsing the text back yields the stored rational unchanged.  Each cell
is, by the definition of computeRow, the two-decimal rounding of its
full-precision value — round2 is applied once, at presentation, never
between the chained computations of Q and the volume. -/
theorem result_cells_roundtrip (t : InputTable) (m : Method) (rs : List ResultRow)
    (h : calculate t m = .ok rs) :
    ∀ r ∈ rs,
      parseFixed2 (renderCell r.rainfall) = r.rainfall ∧
      parseFixed2 (renderCell r.runoff) = r.runoff ∧
      parseFixed2 (renderCell r.runoffVolume) = r.runoffVolume := by
  obtain rfl := calculate_ok_eq h
  intro r hr
  obtain ⟨r0, _, rfl⟩ := List.mem_map.1 hr
  obtain ⟨p, c, a⟩ := r0
  cases m
  · exact ⟨parse_render_round2 p, parse_render_round2 _, parse_render_round2 _⟩
  · exact ⟨parse_render_round2 p, parse_render_round2 _, parse_render_round2 _⟩

theorem result_cells_roundtrip_witness :
    parseFixed2 (renderCell (computeRow .scs_cn ⟨50, 80, 10⟩).rainfall) =
      (computeRow .scs_cn ⟨50, 80, 10⟩).rainfall ∧
    parseFixed2 (renderCell (computeRow .scs_cn ⟨50, 80, 10⟩).runoff) =
      (computeRow .scs_cn ⟨50, 80, 10⟩).runoff ∧
    parseFixed2 (renderCell (computeRow .scs_cn ⟨50, 80, 10⟩).runoffVolume) =
      (computeRow .scs_cn ⟨50, 80, 10⟩).runoffVolume :=
  result_cells_roundtrip ⟨true, true, true, [⟨50, 80, 10⟩]⟩ .scs_cn _ rfl
    (computeRow .scs_cn ⟨50, 80, 10⟩) (List.mem_singleton.2 rfl)

end RunMeter
